import Mathlib

/-
Shallow embedding of the annotation-conversion core of the dataset-app
repository (src-tauri/src/labelme_convert/).

Modelling conventions:
* Rust f64/f32 values are modelled as exact rationals (ℚ); machine-float
  rounding is outside the scope of this embedding.
* HashMap<String, usize> is modelled as an association list with
  insert-or-replace and first-match lookup; HashSet<String> as a list with
  insert-if-absent.  Only order-independent observations of these containers
  are used by the verified properties, matching the source's use.
* Filesystem and JSON IO are abstracted: file reads appear as
  already-parsed values (or read errors), file existence as booleans, and
  writes as fields of an effect record.
* Transcendental f64 operations (cos, sin, sqrt; used only by the circle
  approximation) have no exact ℚ counterpart and are taken as function
  parameters.
* A few declarations are renamed from the source (noted in their doc
  comments); otherwise names follow the source.
-/

/-- Source: types.rs enum InputAnnotationFormat - dataset-wide detected format. -/
inductive InputAnnotationFormat where
  | Bbox2Point
  | Bbox4Point
  | Polygon
  | Unknown
deriving DecidableEq, Repr

/-- Source: types.rs enum InvalidReason - reasons a shape is rejected. -/
inductive InvalidReason where
  | EmptyPoints
  | ZeroArea
  | InsufficientPoints
  | LabelNotInList
  | PointsCountMismatch (expected_format : InputAnnotationFormat) (actual_points : ℕ)
deriving DecidableEq, Repr

/-- Source: types.rs struct Shape.  Coordinates are ℚ (for f64); the unused
optional fields group_id, description, mask and flags are omitted. -/
structure Shape where
  label : String
  points : List (ℚ × ℚ)
  shape_type : String
deriving DecidableEq, Repr

/-- Source: types.rs struct LabelMeAnnotation (renamed here to LabelMeFile:
one parsed per-image JSON document). -/
structure LabelMeFile where
  version : String
  shapes : List Shape
  image_path : String
  image_data : Option String
  image_height : ℕ
  image_width : ℕ
deriving DecidableEq, Repr

/-- Source: config.rs enum AnnotationFormat - YOLO output mode. -/
inductive AnnotationFormat where
  | Bbox
  | Polygon
deriving DecidableEq, Repr

/-- Source: config.rs enum SegmentationMode - COCO segmentation mode. -/
inductive SegmentationMode where
  | Polygon
  | BboxOnly
deriving DecidableEq, Repr

/-- Source: pipeline.rs enum Split. -/
inductive Split where
  | Train
  | Val
  | Test
  | NoSplit
deriving DecidableEq, Repr

/-- Lookup in the association-list model of HashMap<String, usize>:
first entry whose key matches. -/
def map_lookup (m : List (String × ℕ)) (k : String) : Option ℕ :=
  (m.find? (fun e => e.1 == k)).map Prod.snd

/-- Insert-or-replace in the association-list model of HashMap<String, usize>. -/
def map_insert (m : List (String × ℕ)) (k : String) (v : ℕ) : List (String × ℕ) :=
  if m.any (fun e => e.1 == k) then
    m.map (fun e => if e.1 == k then (k, v) else e)
  else
    m ++ [(k, v)]

/-- Insert-if-absent in the list model of HashSet<String>. -/
def set_insert (s : List String) (x : String) : List String :=
  if x ∈ s then s else s ++ [x]

/-- Source: detection.rs determine_format_with_confidence (lines 162-270).
Returns the detected format and its confidence; the human-readable
description string returned by the source alongside these is omitted.
The counts and the point-count histogram are passed in exactly as in the
source (the histogram as a list of (point_count, frequency) pairs). -/
def determine_format_with_confidence (total_sampled : ℕ)
    (count_2_points count_4_points count_3_plus_points : ℕ)
    (points_distribution : List (ℕ × ℕ)) (threshold : ℚ) :
    InputAnnotationFormat × ℚ :=
  if total_sampled = 0 then
    (InputAnnotationFormat.Unknown, 0)
  else
    let r2 : ℚ := (count_2_points : ℚ) / (total_sampled : ℚ)
    let r4 : ℚ := (count_4_points : ℚ) / (total_sampled : ℚ)
    let r3p : ℚ := (count_3_plus_points : ℚ) / (total_sampled : ℚ)
    if r2 ≥ threshold then
      (InputAnnotationFormat.Bbox2Point, r2)
    else if r4 ≥ threshold then
      (InputAnnotationFormat.Bbox4Point, r4)
    else if r3p ≥ threshold then
      if r4 ≥ threshold then
        (InputAnnotationFormat.Bbox4Point, r4)
      else if 1 < (points_distribution.filter
          (fun kv => decide (3 ≤ kv.1) && decide (0 < kv.2))).length then
        (InputAnnotationFormat.Polygon, r3p)
      else if r4 > 1/2 then
        (InputAnnotationFormat.Bbox4Point, r4)
      else
        (InputAnnotationFormat.Polygon, r3p)
    else
      (InputAnnotationFormat.Unknown, max (max r2 r4) r3p)

/-- Number of sampled shapes whose point count equals k
(detection.rs analyze_shapes: points_distribution entry for k). -/
def count_eq (sample : List ℕ) (k : ℕ) : ℕ :=
  (sample.filter (fun n => n == k)).length

/-- Number of sampled shapes with at least 3 points
(detection.rs analyze_shapes: count_3_plus_points). -/
def count_3_plus (sample : List ℕ) : ℕ :=
  (sample.filter (fun n => decide (3 ≤ n))).length

/-- Histogram of point counts over the sample (detection.rs analyze_shapes,
lines 124-129).  The source builds a HashMap; only order-independent
observations of it are made downstream, so a list of (count, frequency)
pairs keyed by the distinct values is a faithful model. -/
def points_histogram (sample : List ℕ) : List (ℕ × ℕ) :=
  sample.dedup.map (fun k => (k, count_eq sample k))

/-- Source: coco.rs validate_shape_points (lines 410-453), also re-exported
and used by the YOLO writer via shape_to_yolo_line. -/
def validate_shape_points (shape : Shape) (input_format : InputAnnotationFormat) :
    Except InvalidReason Unit :=
  let points_count := shape.points.length
  if points_count = 0 then
    Except.error InvalidReason.EmptyPoints
  else
    match input_format with
    | InputAnnotationFormat.Bbox2Point =>
      if points_count ≠ 2 then
        Except.error (InvalidReason.PointsCountMismatch input_format points_count)
      else
        Except.ok ()
    | InputAnnotationFormat.Bbox4Point =>
      if points_count ≠ 4 then
        Except.error (InvalidReason.PointsCountMismatch input_format points_count)
      else
        Except.ok ()
    | InputAnnotationFormat.Polygon =>
      if points_count < 3 then
        Except.error (InvalidReason.PointsCountMismatch input_format points_count)
      else
        Except.ok ()
    | InputAnnotationFormat.Unknown =>
      if points_count < 2 then
        Except.error InvalidReason.InsufficientPoints
      else
        Except.ok ()

/-- Source: pipeline.rs determine_split (lines 251-261).  The f32 arithmetic
is modelled over ℚ; path_hash is the u64 hash value. -/
def determine_split (path_hash : ℕ) (val_size test_size : ℚ) : Split :=
  let r : ℚ := ((path_hash % 1000 : ℕ) : ℚ) / 1000
  if r < val_size then Split.Val
  else if r < val_size + test_size then Split.Test
  else Split.Train

/-- Split assignment of an image path: determine_split applied to the hash of
the resolved path string (pipeline.rs hash_string + determine_split; the
standard-library string hash itself is abstracted as a parameter). -/
def split_of_path (hash_fn : String → ℕ) (path : String) (val_size test_size : ℚ) : Split :=
  determine_split (hash_fn path) val_size test_size

/-- Source: conversion.rs get_bounding_coords (lines 58-72):
(min_x, max_x, min_y, max_y).  The source folds min/max starting from f64
sentinel values; both callers guard against empty input, for which this
model returns zeros. -/
def get_bounding_coords (points : List (ℚ × ℚ)) : ℚ × ℚ × ℚ × ℚ :=
  match points with
  | [] => (0, 0, 0, 0)
  | p :: rest =>
    rest.foldl
      (fun acc q => (min acc.1 q.1, max acc.2.1 q.1, min acc.2.2.1 q.2, max acc.2.2.2 q.2))
      (p.1, p.1, p.2, p.2)

/-- Source: conversion.rs calculate_bbox (lines 17-54): normalized
(x_center, y_center, width, height), none when the clamped box has
non-positive width or height. -/
def calculate_bbox (shape : Shape) (image_width image_height : ℕ) :
    Option (ℚ × ℚ × ℚ × ℚ) :=
  if shape.points = [] then
    none
  else
    let c := get_bounding_coords shape.points
    let min_x := min (max c.1 0) (image_width : ℚ)
    let max_x := min (max c.2.1 0) (image_width : ℚ)
    let min_y := min (max c.2.2.1 0) (image_height : ℚ)
    let max_y := min (max c.2.2.2 0) (image_height : ℚ)
    let width := max_x - min_x
    let height := max_y - min_y
    if width ≤ 0 ∨ height ≤ 0 then
      none
    else
      let x_center := (min_x + max_x) / 2
      let y_center := (min_y + max_y) / 2
      let inv_w := 1 / (image_width : ℚ)
      let inv_h := 1 / (image_height : ℚ)
      some (x_center * inv_w, y_center * inv_h, width * inv_w, height * inv_h)

/-- Source: conversion.rs normalize_polygon (lines 75-92): clamp each point to
the image bounds, then scale to [0, 1]. -/
def normalize_polygon (points : List (ℚ × ℚ)) (image_width image_height : ℕ) :
    List (ℚ × ℚ) :=
  let inv_w := 1 / (image_width : ℚ)
  let inv_h := 1 / (image_height : ℚ)
  points.map (fun q =>
    ((min (max q.1 0) ((image_width : ℚ))) * inv_w,
     (min (max q.2 0) ((image_height : ℚ))) * inv_h))

/-- Source: conversion.rs rectangle_to_polygon (lines 154-163): expand a
2-point diagonal to the 4 rectangle corners; other lengths pass through. -/
def rectangle_to_polygon (points : List (ℚ × ℚ)) : List (ℚ × ℚ) :=
  match points with
  | [(x1, y1), (x2, y2)] => [(x1, y1), (x2, y1), (x2, y2), (x1, y2)]
  | _ => points

/-- Source: conversion.rs circle_to_polygon (lines 166-178).  The f64 cos/sin
are transcendental and have no exact ℚ embedding; they are abstracted as
parameters taking the fraction i / num_points of a full turn. -/
def circle_to_polygon (cos_turn sin_turn : ℚ → ℚ) (center : ℚ × ℚ) (radius : ℚ)
    (num_points : ℕ) : List (ℚ × ℚ) :=
  (List.range num_points).map (fun i =>
    (center.1 + radius * cos_turn ((i : ℚ) / (num_points : ℚ)),
     center.2 + radius * sin_turn ((i : ℚ) / (num_points : ℚ))))

/-- Source: conversion.rs calculate_polygon_area (lines 181-196): absolute
shoelace area, 0 for fewer than 3 points. -/
def calculate_polygon_area (points : List (ℚ × ℚ)) : ℚ :=
  if points.length < 3 then
    0
  else
    let n := points.length
    let area := (List.range n).foldl
      (fun acc i =>
        let pi := points.getD i (0, 0)
        let pj := points.getD ((i + 1) % n) (0, 0)
        acc + pi.1 * pj.2 - pj.1 * pi.2)
      0
    |area / 2|

/-- Source: conversion.rs calculate_coco_bbox (lines 200-208):
(x, y, width, height) with (x, y) the top-left corner. -/
def calculate_coco_bbox (points : List (ℚ × ℚ)) : ℚ × ℚ × ℚ × ℚ :=
  if points = [] then
    (0, 0, 0, 0)
  else
    let c := get_bounding_coords points
    (c.1, c.2.2.1, c.2.1 - c.1, c.2.2.2 - c.2.2.1)

/-- Source: conversion.rs flatten_polygon (lines 212-214). -/
def flatten_polygon (points : List (ℚ × ℚ)) : List ℚ :=
  points.foldr (fun q acc => q.1 :: q.2 :: acc) []

/-- Source: conversion.rs shape_to_yolo_line (lines 96-151).  The formatted
output string "class x1 y1 ..." is modelled as the pair of the class id and
the list of numbers following it (one per "{:.6}" placeholder). -/
def shape_to_yolo_line (shape : Shape) (class_id : ℕ)
    (image_width image_height : ℕ) (format : AnnotationFormat)
    (input_format : InputAnnotationFormat) :
    Except InvalidReason (ℕ × List ℚ) :=
  match validate_shape_points shape input_format with
  | Except.error r => Except.error r
  | Except.ok _ =>
    match format with
    | AnnotationFormat.Bbox =>
      match calculate_bbox shape image_width image_height with
      | none =>
        Except.error
          (if shape.points = [] then InvalidReason.EmptyPoints else InvalidReason.ZeroArea)
      | some b => Except.ok (class_id, [b.1, b.2.1, b.2.2.1, b.2.2.2])
    | AnnotationFormat.Polygon =>
      match input_format with
      | InputAnnotationFormat.Bbox2Point =>
        Except.ok (class_id,
          flatten_polygon
            (normalize_polygon (rectangle_to_polygon shape.points) image_width image_height))
      | _ =>
        Except.ok (class_id,
          flatten_polygon (normalize_polygon shape.points image_width image_height))

/-- Source: pipeline.rs struct ProcessingContext (stats and errors fields are
modelled separately where needed). -/
structure ProcessingContext where
  label_map : List (String × ℕ)
  processed_images : List String
  skipped_labels : List String
deriving DecidableEq, Repr

/-- Source: pipeline.rs ProcessingContext::new. -/
def ProcessingContext.new : ProcessingContext :=
  { label_map := [], processed_images := [], skipped_labels := [] }

/-- Source: pipeline.rs ProcessingContext::with_labels - insert each label of
the list with its positional index as id. -/
def ProcessingContext.with_labels (labels : List String) : ProcessingContext :=
  { ProcessingContext.new with
    label_map := labels.enum.foldl (fun m e => map_insert m e.2 e.1) [] }

/-- Source: pipeline.rs ProcessingContext::ensure_label - return the existing
id, or assign the next id (current map size) to a new label. -/
def ProcessingContext.ensure_label (ctx : ProcessingContext) (label : String) :
    ℕ × ProcessingContext :=
  match map_lookup ctx.label_map label with
  | some id => (id, ctx)
  | none =>
    let next_id := ctx.label_map.length
    (next_id, { ctx with label_map := map_insert ctx.label_map label next_id })

/-- Source: pipeline.rs ProcessingContext::is_image_processed. -/
def ProcessingContext.is_image_processed (ctx : ProcessingContext) (image_key : String) : Bool :=
  image_key ∈ ctx.processed_images

/-- Source: pipeline.rs ProcessingContext::mark_image_processed. -/
def ProcessingContext.mark_image_processed (ctx : ProcessingContext) (image_key : String) :
    ProcessingContext :=
  { ctx with processed_images := set_insert ctx.processed_images image_key }

/-- Source: pipeline.rs ProcessingContext::add_skipped_label. -/
def ProcessingContext.add_skipped_label (ctx : ProcessingContext) (label : String) :
    ProcessingContext :=
  { ctx with skipped_labels := set_insert ctx.skipped_labels label }

/-- Apply a sequence of ensure_label calls to a context. -/
def apply_ensure_labels (ops : List String) (ctx : ProcessingContext) : ProcessingContext :=
  ops.foldl (fun c l => (c.ensure_label l).2) ctx

/-- The label map produced by the initialization loop of the YOLO and COCO
converters over a predefined label list (yolo.rs lines 45-47, coco.rs
lines 158-160); identical to ProcessingContext.with_labels. -/
def labels_to_map (labels : List String) : List (String × ℕ) :=
  labels.enum.foldl (fun m e => map_insert m e.2 e.1) []

/-- Source: types.rs struct InvalidAnnotation (renamed here to
InvalidRecord).  The source stores reason.as_str(); the structured reason is
kept instead of its rendered string. -/
structure InvalidRecord where
  file : String
  label : String
  reason : InvalidReason
  shape_type : String
  points_count : ℕ
deriving DecidableEq, Repr

/-- Per-file loop state of the YOLO shape loop
(yolo.rs process_single_file, lines 204-248). -/
structure YoloLoopState where
  yolo_lines : List (ℕ × List ℚ)
  annotation_count : ℕ
  skipped_count : ℕ
  invalid_records : List InvalidRecord
  skipped_labels : List String
deriving DecidableEq, Repr

/-- Source: the body of the shape loop of yolo.rs process_single_file
(lines 215-248): shapes with a mapped label are converted (success appends a
line, failure records an invalid shape); unmapped labels are only counted as
skipped and added to the skipped-label set. -/
def yolo_shape_step (file_name : String) (label_map : List (String × ℕ))
    (image_width image_height : ℕ) (format : AnnotationFormat)
    (input_format : InputAnnotationFormat) (st : YoloLoopState) (shape : Shape) :
    YoloLoopState :=
  match map_lookup label_map shape.label with
  | some class_id =>
    match shape_to_yolo_line shape class_id image_width image_height format input_format with
    | Except.ok line =>
      { st with
        yolo_lines := st.yolo_lines ++ [line],
        annotation_count := st.annotation_count + 1 }
    | Except.error reason =>
      { st with
        invalid_records := st.invalid_records ++
          [{ file := file_name, label := shape.label, reason := reason,
             shape_type := shape.shape_type, points_count := shape.points.length }],
        skipped_count := st.skipped_count + 1 }
  | none =>
    { st with
      skipped_labels := set_insert st.skipped_labels shape.label,
      skipped_count := st.skipped_count + 1 }

/-- Observable effects of processing one file in the YOLO writer. -/
structure YoloFileOutput where
  annotation_count : ℕ
  skipped_count : ℕ
  invalid_records : List InvalidRecord
  yolo_lines : List (ℕ × List ℚ)
  image_written : Bool
  label_file_written : Bool
deriving DecidableEq, Repr

/-- Source: yolo.rs process_single_file (lines 145-256), with IO abstracted:
the parsed document, the resolved image key and the image-file existence are
inputs; image extraction/copy and the label-file write are recorded as
booleans.  The image key is inserted into processed_images unconditionally -
the source performs no membership check before processing. -/
def yolo_process_single_file (json_file_name : String) (ann : LabelMeFile)
    (image_key : String) (image_exists : Bool) (hash_fn : String → ℕ)
    (cfg_label_list : List String) (cfg_deterministic_labels : Bool)
    (cfg_annotation_format : AnnotationFormat) (val_size test_size : ℚ)
    (label_map : List (String × ℕ)) (processed_images : List String)
    (skipped_labels : List String) (input_format : InputAnnotationFormat) :
    List (String × ℕ) × List String × List String × Except String YoloFileOutput :=
  let processed_images := set_insert processed_images image_key
  let _split := determine_split (hash_fn image_key) val_size test_size
  let label_map :=
    if cfg_label_list = [] ∧ cfg_deterministic_labels = false then
      ann.shapes.foldl
        (fun m s => if map_lookup m s.label = none then map_insert m s.label m.length else m)
        label_map
    else label_map
  match ann.image_data, image_exists with
  | none, false =>
    (label_map, processed_images, skipped_labels,
     Except.error ("Image file not found: " ++ image_key))
  | _, _ =>
    let st0 : YoloLoopState :=
      { yolo_lines := [], annotation_count := 0, skipped_count := 0,
        invalid_records := [], skipped_labels := skipped_labels }
    let st := ann.shapes.foldl
      (yolo_shape_step json_file_name label_map ann.image_width ann.image_height
        cfg_annotation_format input_format) st0
    (label_map, processed_images, st.skipped_labels,
     Except.ok
       { annotation_count := st.annotation_count,
         skipped_count := st.skipped_count,
         invalid_records := st.invalid_records,
         yolo_lines := st.yolo_lines,
         image_written := true,
         label_file_written := true })

/-- Source: coco.rs struct CocoAnnotation (renamed here to CocoAnnRecord). -/
structure CocoAnnRecord where
  id : ℕ
  image_id : ℕ
  category_id : ℕ
  bbox : ℚ × ℚ × ℚ × ℚ
  area : ℚ
  iscrowd : ℕ
  segmentation : Option (List (List ℚ))
deriving DecidableEq, Repr

/-- The point-list conversion performed by coco.rs shape_to_coco_annotation
(lines 463-492): polygon with a duplicated closing point removed, rectangle
expanded to 4 corners, circle approximated by a 12-point polygon, any other
shape type rejected.  sqrt_fn abstracts the f64 square root used for the
circle radius. -/
def coco_convert_points (cos_turn sin_turn sqrt_fn : ℚ → ℚ) (shape : Shape) :
    Option (List (ℚ × ℚ)) :=
  if shape.shape_type = "polygon" then
    let pts := shape.points
    if 4 ≤ pts.length then
      let first := pts.getD 0 (0, 0)
      let last := pts.getD (pts.length - 1) (0, 0)
      if |first.1 - last.1| < 1/1000 ∧ |first.2 - last.2| < 1/1000 then
        some pts.dropLast
      else
        some pts
    else
      some pts
  else if shape.shape_type = "rectangle" then
    if shape.points.length < 2 then none
    else some (rectangle_to_polygon shape.points)
  else if shape.shape_type = "circle" then
    if shape.points.length < 2 then none
    else
      let c := shape.points.getD 0 (0, 0)
      let p := shape.points.getD 1 (0, 0)
      let radius := sqrt_fn ((c.1 - p.1) ^ 2 + (c.2 - p.2) ^ 2)
      some (circle_to_polygon cos_turn sin_turn c radius 12)
  else
    none

/-- Source: coco.rs shape_to_coco_annotation (lines 456-520, renamed here to
shape_to_coco_ann): converted point lists with fewer than 3 points or
non-positive shoelace area yield no output. -/
def shape_to_coco_ann (cos_turn sin_turn sqrt_fn : ℚ → ℚ) (shape : Shape)
    (image_id category_id annotation_id : ℕ)
    (segmentation_mode : SegmentationMode) : Option CocoAnnRecord :=
  match coco_convert_points cos_turn sin_turn sqrt_fn shape with
  | none => none
  | some points =>
    if points.length < 3 then
      none
    else
      let area := calculate_polygon_area points
      if area ≤ 0 then
        none
      else
        some
          { id := annotation_id,
            image_id := image_id,
            category_id := category_id,
            bbox := calculate_coco_bbox points,
            area := area,
            iscrowd := 0,
            segmentation :=
              match segmentation_mode with
              | SegmentationMode.Polygon => some [flatten_polygon points]
              | SegmentationMode.BboxOnly => none }

/-- Per-file loop state of the COCO shape loop
(coco.rs process_single_file_coco, lines 357-392). -/
structure CocoLoopState where
  coco_anns : List CocoAnnRecord
  skipped_count : ℕ
  invalid_records : List InvalidRecord
  annotation_id_counter : ℕ
  skipped_labels : List String
deriving DecidableEq, Repr

/-- Source: the body of the shape loop of coco.rs process_single_file_coco
(lines 362-392): mapped labels are validated and converted (the annotation id
counter advances only when an annotation is emitted, with 1-indexed category
id class_id + 1); unmapped labels are only counted as skipped and added to
the skipped-label set. -/
def coco_shape_step (cos_turn sin_turn sqrt_fn : ℚ → ℚ) (json_file_name : String)
    (label_map : List (String × ℕ)) (image_id : ℕ)
    (segmentation_mode : SegmentationMode) (input_format : InputAnnotationFormat)
    (st : CocoLoopState) (shape : Shape) : CocoLoopState :=
  match map_lookup label_map shape.label with
  | some class_id =>
    match validate_shape_points shape input_format with
    | Except.error reason =>
      { st with
        invalid_records := st.invalid_records ++
          [{ file := json_file_name, label := shape.label, reason := reason,
             shape_type := shape.shape_type, points_count := shape.points.length }],
        skipped_count := st.skipped_count + 1 }
    | Except.ok _ =>
      match shape_to_coco_ann cos_turn sin_turn sqrt_fn shape image_id (class_id + 1)
          st.annotation_id_counter segmentation_mode with
      | some coco_ann =>
        { st with
          coco_anns := st.coco_anns ++ [coco_ann],
          annotation_id_counter := st.annotation_id_counter + 1 }
      | none => st
  | none =>
    { st with
      skipped_labels := set_insert st.skipped_labels shape.label,
      skipped_count := st.skipped_count + 1 }

/-- Observable effects of processing one file in the self-format (LabelMe)
pipeline. -/
structure LabelMeFileOutput where
  annotations_processed : ℕ
  annotations_skipped : ℕ
  json_written : Bool
  image_copied : Bool
deriving DecidableEq, Repr

/-- Source: labelme_out.rs filter_shapes (lines 157-188): with an empty label
list keep all shapes (registering every label); otherwise keep only shapes
whose label is in the list, counting and recording the rest as skipped. -/
def filter_shapes (shapes : List Shape) (label_list : List String)
    (ctx : ProcessingContext) : List Shape × ℕ × ProcessingContext :=
  if label_list = [] then
    (shapes, 0, shapes.foldl (fun c s => (c.ensure_label s.label).2) ctx)
  else
    shapes.foldl
      (fun (acc : List Shape × ℕ × ProcessingContext) s =>
        if s.label ∈ label_list then
          (acc.1 ++ [s], acc.2.1, (acc.2.2.ensure_label s.label).2)
        else
          (acc.1, acc.2.1 + 1, acc.2.2.add_skipped_label s.label))
      ([], 0, ctx)

/-- Source: labelme_out.rs LabelMePipeline::process_file (lines 43-104), with
IO abstracted as in yolo_process_single_file.  A file whose resolved image
key is already in processed_images returns the default result without any
write; otherwise the key is marked, shapes are filtered, the document is
written and the image copied when it exists. -/
def labelme_process_file (ann : LabelMeFile) (image_key : String)
    (image_exists : Bool) (cfg_label_list : List String)
    (cfg_remove_image_data : Bool) (ctx : ProcessingContext) :
    ProcessingContext × Except String LabelMeFileOutput :=
  if ctx.is_image_processed image_key then
    (ctx, Except.ok
      { annotations_processed := 0, annotations_skipped := 0,
        json_written := false, image_copied := false })
  else
    let ctx := ctx.mark_image_processed image_key
    let fr := filter_shapes ann.shapes cfg_label_list ctx
    let filtered := fr.1
    let skipped_count := fr.2.1
    let ctx := fr.2.2
    let _ann' := { ann with
      shapes := filtered,
      image_data := if cfg_remove_image_data then none else ann.image_data }
    (ctx, Except.ok
      { annotations_processed := filtered.length,
        annotations_skipped := skipped_count,
        json_written := true,
        image_copied := image_exists })

/-- Source: types.rs struct ProcessingStats. -/
structure ProcessingStats where
  total_files : ℕ
  processed_files : ℕ
  skipped_files : ℕ
  failed_files : ℕ
  total_anns : ℕ
  skipped_anns : ℕ
  background_images : ℕ
  background_files : List String
  labels_found : List String
  skipped_labels : List String
  invalid_records : List InvalidRecord
deriving DecidableEq, Repr

/-- Source: types.rs ProcessingStats::new (all counters zero, lists empty). -/
def ProcessingStats.new : ProcessingStats :=
  { total_files := 0, processed_files := 0, skipped_files := 0, failed_files := 0,
    total_anns := 0, skipped_anns := 0, background_images := 0,
    background_files := [], labels_found := [], skipped_labels := [],
    invalid_records := [] }

/-- Source: types.rs ProcessingStats::increment_processed. -/
def ProcessingStats.increment_processed (s : ProcessingStats) : ProcessingStats :=
  { s with processed_files := s.processed_files + 1 }

/-- Source: types.rs ProcessingStats::increment_failed. -/
def ProcessingStats.increment_failed (s : ProcessingStats) : ProcessingStats :=
  { s with failed_files := s.failed_files + 1 }

/-- Source: types.rs ProcessingStats::add_annotations (renamed add_anns). -/
def ProcessingStats.add_anns (s : ProcessingStats) (count : ℕ) : ProcessingStats :=
  { s with total_anns := s.total_anns + count }

/-- Source: types.rs ProcessingStats::add_skipped_annotations (renamed
add_skipped_anns). -/
def ProcessingStats.add_skipped_anns (s : ProcessingStats) (count : ℕ) : ProcessingStats :=
  { s with skipped_anns := s.skipped_anns + count }

/-- Source: types.rs ProcessingStats::add_invalid_annotation (renamed
add_invalid_record): capped at the first 100 records. -/
def ProcessingStats.add_invalid_record (s : ProcessingStats) (r : InvalidRecord) :
    ProcessingStats :=
  if s.invalid_records.length < 100 then
    { s with invalid_records := s.invalid_records ++ [r] }
  else s

/-- Source: types.rs struct ConversionResult. -/
structure ConversionResult where
  success : Bool
  output_dir : String
  stats : ProcessingStats
  errors : List String
deriving DecidableEq, Repr

/-- Source: types.rs ConversionResult::success (renamed mk_success to avoid
clashing with the field projection). -/
def ConversionResult.mk_success (output_dir : String) (stats : ProcessingStats) :
    ConversionResult :=
  { success := true, output_dir := output_dir, stats := stats, errors := [] }

/-- Source: types.rs ConversionResult::failure (renamed mk_failure). -/
def ConversionResult.mk_failure (errors : List String) : ConversionResult :=
  { success := false, output_dir := "", stats := ProcessingStats.new, errors := errors }

/-- The configuration fields consulted by validation and the converters
(config.rs struct ConversionConfig).  input_dir.exists() is modelled as the
boolean input_dir_exists; path/name/seed fields not consulted by the
verified properties are omitted. -/
structure ConversionConfig where
  input_dir_exists : Bool
  val_size : ℚ
  test_size : ℚ
  label_list : List String
  deterministic_labels : Bool
  include_background : Bool
  annotation_format : AnnotationFormat
  segmentation_mode : SegmentationMode
  remove_image_data : Bool
deriving DecidableEq, Repr

/-- Source: config.rs ConversionConfig::validate (lines 225-255).  The source
interpolates the offending values into its messages; the messages here keep
only the fixed prefix. -/
def ConversionConfig.validate (cfg : ConversionConfig) : Except String Unit :=
  if cfg.input_dir_exists = false then
    Except.error "Input directory does not exist"
  else if cfg.val_size < 0 ∨ 1 < cfg.val_size then
    Except.error "val_size must be between 0.0 and 1.0"
  else if cfg.test_size < 0 ∨ 1 < cfg.test_size then
    Except.error "test_size must be between 0.0 and 1.0"
  else if 1 < cfg.val_size + cfg.test_size then
    Except.error "val_size + test_size must not exceed 1.0"
  else
    Except.ok ()

/-- Recording a list of invalid records one by one (the loop of yolo.rs
lines 77-79). -/
def ProcessingStats.add_invalid_records (s : ProcessingStats) (rs : List InvalidRecord) :
    ProcessingStats :=
  rs.foldl ProcessingStats.add_invalid_record s

/-- Abstract outcome of processing one JSON file in the YOLO converter: the
file name and either (annotation_count, skipped_count, invalid records) or a
per-file error message (IO and per-file processing abstracted). -/
structure YoloFileSummary where
  name : String
  outcome : Except String (ℕ × ℕ × List InvalidRecord)
deriving Repr

/-- The per-file accumulation step of convert_to_yolo's main loop
(yolo.rs lines 62-86). -/
def convert_file_step (acc : ProcessingStats × List String) (f : YoloFileSummary) :
    ProcessingStats × List String :=
  match f.outcome with
  | Except.ok r =>
    (((acc.1.increment_processed).add_anns r.1).add_skipped_anns r.2.1
       |>.add_invalid_records r.2.2,
     acc.2)
  | Except.error e =>
    (acc.1.increment_failed, acc.2 ++ [f.name ++ ": " ++ e])

/-- Source: yolo.rs convert_to_yolo (lines 21-120), with IO abstracted: the
directory-setup outcome, the per-file outcomes and the dataset.yaml write
outcome are inputs.  Validation failure or setup failure yields a failure
result before any file is processed; afterwards the result is always built
with ConversionResult::success (per-file errors only populate the error
list). -/
def convert_to_yolo (cfg : ConversionConfig) (setup : Except String String)
    (files : List YoloFileSummary) (yaml_result : Except String Unit) :
    ConversionResult :=
  match cfg.validate with
  | Except.error e => ConversionResult.mk_failure [e]
  | Except.ok _ =>
    match setup with
    | Except.error e =>
      ConversionResult.mk_failure ["Failed to create output directories: " ++ e]
    | Except.ok base_dir =>
      let init : ProcessingStats := { ProcessingStats.new with total_files := files.length }
      let acc := files.foldl convert_file_step (init, [])
      let errors :=
        match yaml_result with
        | Except.error e => acc.2 ++ ["Failed to create dataset.yaml: " ++ e]
        | Except.ok _ => acc.2
      if errors = [] then
        ConversionResult.mk_success base_dir acc.1
      else
        { ConversionResult.mk_success base_dir acc.1 with errors := errors }

/-- All shape labels occurring in the successfully read files, in file order
(the collection pass of yolo.rs gather_labels, lines 122-132; read failures
contribute nothing). -/
def collected_labels (reads : List (Except String LabelMeFile)) : List String :=
  reads.foldl
    (fun acc r =>
      match r with
      | Except.ok ann => acc ++ ann.shapes.map (fun s => s.label)
      | Except.error _ => acc)
    []

/-- The distinct labels sorted ascending (yolo.rs gather_labels lines
134-137: HashSet drained into a Vec and sorted; the sort makes the set's
iteration order irrelevant). -/
def sorted_label_union (reads : List (Except String LabelMeFile)) : List String :=
  ((collected_labels reads).dedup).mergeSort (fun a b => decide (a ≤ b))

/-- Source: yolo.rs gather_labels (lines 122-141) - the deterministic-labels
first pass: collect every label, sort alphabetically, assign sequential ids. -/
def gather_labels (reads : List (Except String LabelMeFile)) : List (String × ℕ) :=
  (sorted_label_union reads).enum.foldl (fun m e => map_insert m e.2 e.1) []

/-
Theorems.
-/

/-- C2: per-shape validation returns EmptyPoints exactly on an empty point
list; otherwise PointsCountMismatch (carrying the format and the actual
count) exactly when a Bbox2Point shape has not 2 points, a Bbox4Point shape
not 4, or a Polygon shape fewer than 3; under Unknown, InsufficientPoints
exactly when fewer than 2 points; Ok in all remaining cases. -/
theorem validate_shape_points_spec (shape : Shape) (fmt : InputAnnotationFormat) :
    (validate_shape_points shape fmt = Except.error InvalidReason.EmptyPoints ↔
      shape.points = []) ∧
    (∀ ef ap, validate_shape_points shape fmt =
        Except.error (InvalidReason.PointsCountMismatch ef ap) ↔
      (shape.points ≠ [] ∧ ef = fmt ∧ ap = shape.points.length ∧
        ((fmt = InputAnnotationFormat.Bbox2Point ∧ shape.points.length ≠ 2) ∨
         (fmt = InputAnnotationFormat.Bbox4Point ∧ shape.points.length ≠ 4) ∨
         (fmt = InputAnnotationFormat.Polygon ∧ shape.points.length < 3)))) ∧
    (validate_shape_points shape fmt = Except.error InvalidReason.InsufficientPoints ↔
      (shape.points ≠ [] ∧ fmt = InputAnnotationFormat.Unknown ∧
        shape.points.length < 2)) ∧
    (validate_shape_points shape fmt = Except.ok () ↔
      (shape.points ≠ [] ∧
        ¬((fmt = InputAnnotationFormat.Bbox2Point ∧ shape.points.length ≠ 2) ∨
          (fmt = InputAnnotationFormat.Bbox4Point ∧ shape.points.length ≠ 4) ∨
          (fmt = InputAnnotationFormat.Polygon ∧ shape.points.length < 3)) ∧
        ¬(fmt = InputAnnotationFormat.Unknown ∧ shape.points.length < 2))) := by
  have hlen : shape.points = [] ↔ shape.points.length = 0 := List.length_eq_zero.symm
  cases fmt <;>
    (refine ⟨?_, fun ef ap => ?_, ?_, ?_⟩ <;>
      simp only [validate_shape_points, hlen] <;> split_ifs <;> simp_all <;>
        exact ⟨fun h => ⟨h.1.symm, h.2.symm⟩, fun h => ⟨h.1.symm, h.2.symm⟩⟩)

/-- C3: with 0 ≤ val_size, 0 ≤ test_size and val_size + test_size ≤ 1, the
split is Val exactly when (hash mod 1000)/1000 < val_size, Test exactly when
it is in [val_size, val_size + test_size), and Train otherwise; and the
assignment is a pure function of the resolved path string through the string
hash, hence identical across runs. -/
theorem determine_split_spec (path_hash : ℕ) (val_size test_size : ℚ)
    (hv : 0 ≤ val_size) (ht : 0 ≤ test_size) (hsum : val_size + test_size ≤ 1) :
    (determine_split path_hash val_size test_size = Split.Val ↔
      ((path_hash % 1000 : ℕ) : ℚ) / 1000 < val_size) ∧
    (determine_split path_hash val_size test_size = Split.Test ↔
      (¬ ((path_hash % 1000 : ℕ) : ℚ) / 1000 < val_size ∧
        ((path_hash % 1000 : ℕ) : ℚ) / 1000 < val_size + test_size)) ∧
    (determine_split path_hash val_size test_size = Split.Train ↔
      ¬ ((path_hash % 1000 : ℕ) : ℚ) / 1000 < val_size + test_size) ∧
    (∀ (hash_fn : String → ℕ) (p₁ p₂ : String), p₁ = p₂ →
      split_of_path hash_fn p₁ val_size test_size =
        split_of_path hash_fn p₂ val_size test_size) := by
  refine ⟨?_, ?_, ?_, fun hash_fn p₁ p₂ hp => by rw [hp]⟩ <;>
    (simp only [determine_split]; split_ifs with h1 h2 <;> simp_all) <;> linarith

/-- C3 witness: hash 100 with val_size 1/5, test_size 1/10 is assigned Val. -/
theorem determine_split_spec_witness :
    determine_split 100 (1/5) (1/10) = Split.Val :=
  (determine_split_spec 100 (1/5) (1/10) (by norm_num) (by norm_num)
    (by norm_num)).1.mpr (by norm_num)

/-- C1: over a non-empty sample, the detector decides in this exact order:
ratio_2 ≥ t gives Bbox2Point (confidence ratio_2); else ratio_4 ≥ t gives
Bbox4Point (confidence ratio_4); else ratio_3plus ≥ t gives Polygon when
more than one distinct point count ≥ 3 has nonzero frequency in the
histogram, else Bbox4Point when ratio_4 > 1/2, else Polygon; else Unknown
with confidence the maximum of the three ratios. -/
theorem detection_decision_order (sample : List ℕ) (threshold r2 r4 r3p : ℚ) (d : ℕ)
    (hne : sample ≠ [])
    (hr2 : r2 = (count_eq sample 2 : ℚ) / (sample.length : ℚ))
    (hr4 : r4 = (count_eq sample 4 : ℚ) / (sample.length : ℚ))
    (hr3p : r3p = (count_3_plus sample : ℚ) / (sample.length : ℚ))
    (hd : d = ((points_histogram sample).filter
      (fun kv => decide (3 ≤ kv.1) && decide (0 < kv.2))).length) :
    (r2 ≥ threshold →
      determine_format_with_confidence sample.length (count_eq sample 2)
        (count_eq sample 4) (count_3_plus sample) (points_histogram sample) threshold =
        (InputAnnotationFormat.Bbox2Point, r2)) ∧
    (¬ r2 ≥ threshold → r4 ≥ threshold →
      determine_format_with_confidence sample.length (count_eq sample 2)
        (count_eq sample 4) (count_3_plus sample) (points_histogram sample) threshold =
        (InputAnnotationFormat.Bbox4Point, r4)) ∧
    (¬ r2 ≥ threshold → ¬ r4 ≥ threshold → r3p ≥ threshold → 1 < d →
      determine_format_with_confidence sample.length (count_eq sample 2)
        (count_eq sample 4) (count_3_plus sample) (points_histogram sample) threshold =
        (InputAnnotationFormat.Polygon, r3p)) ∧
    (¬ r2 ≥ threshold → ¬ r4 ≥ threshold → r3p ≥ threshold → ¬ 1 < d → r4 > 1/2 →
      determine_format_with_confidence sample.length (count_eq sample 2)
        (count_eq sample 4) (count_3_plus sample) (points_histogram sample) threshold =
        (InputAnnotationFormat.Bbox4Point, r4)) ∧
    (¬ r2 ≥ threshold → ¬ r4 ≥ threshold → r3p ≥ threshold → ¬ 1 < d → ¬ r4 > 1/2 →
      determine_format_with_confidence sample.length (count_eq sample 2)
        (count_eq sample 4) (count_3_plus sample) (points_histogram sample) threshold =
        (InputAnnotationFormat.Polygon, r3p)) ∧
    (¬ r2 ≥ threshold → ¬ r4 ≥ threshold → ¬ r3p ≥ threshold →
      determine_format_with_confidence sample.length (count_eq sample 2)
        (count_eq sample 4) (count_3_plus sample) (points_histogram sample) threshold =
        (InputAnnotationFormat.Unknown, max (max r2 r4) r3p)) := by
  subst hr2 hr4 hr3p hd
  have h0 : ¬ sample.length = 0 := fun h => hne (List.length_eq_zero.mp h)
  simp only [determine_format_with_confidence, if_neg h0]
  split_ifs <;>
    refine ⟨?_, ?_, ?_, ?_, ?_, ?_⟩ <;> intros <;>
      first
        | rfl
        | (exfalso; omega)
        | (exfalso
           first
             | linarith
             | omega)

/-- C1 witness: a sample of two 2-point shapes at threshold 1/2 is detected
as Bbox2Point with confidence ratio_2. -/
theorem detection_decision_order_witness :
    determine_format_with_confidence ([2, 2] : List ℕ).length (count_eq [2, 2] 2)
      (count_eq [2, 2] 4) (count_3_plus [2, 2]) (points_histogram [2, 2]) (1/2) =
      (InputAnnotationFormat.Bbox2Point,
        (count_eq [2, 2] 2 : ℚ) / (([2, 2] : List ℕ).length : ℚ)) :=
  (detection_decision_order [2, 2] (1/2) _ _ _ _ (by decide) rfl rfl rfl rfl).1
    (by norm_num [count_eq])

theorem map_lookup_eq_none_iff (m : List (String × ℕ)) (k : String) :
    map_lookup m k = none ↔ ∀ e ∈ m, e.1 ≠ k := by
  simp [map_lookup, List.find?_eq_none]

theorem map_lookup_insert_eq_none_iff (m : List (String × ℕ)) (k' : String) (v : ℕ)
    (k : String) :
    map_lookup (map_insert m k' v) k = none ↔ map_lookup m k = none ∧ k ≠ k' := by
  by_cases hp : m.any (fun e => e.1 == k')
  · rcases List.any_eq_true.mp hp with ⟨a, ha, hak⟩
    simp only [beq_iff_eq] at hak
    simp only [map_insert, if_pos hp, map_lookup_eq_none_iff, List.mem_map]
    constructor
    · intro h
      have hk' := h (k', v) ⟨a, ha, by simp [hak]⟩
      refine ⟨fun e he => ?_, fun hkk => hk' (by simp [hkk])⟩
      by_cases hek : e.1 = k'
      · intro hc; exact hk' (hek.symm.trans hc)
      · intro hc
        exact (h (e.1, e.2) ⟨e, he, by simp [hek]⟩) hc
    · rintro ⟨h, hkk⟩ e ⟨a', ha', hae⟩
      by_cases hak' : a'.1 = k'
      · simp only [hak', beq_self_eq_true, if_true] at hae
        rw [← hae]
        exact fun hc => hkk hc.symm
      · simp only [beq_iff_eq, if_neg hak'] at hae
        rw [← hae]
        exact h a' ha'
  · simp only [map_insert, if_neg hp, map_lookup_eq_none_iff, List.mem_append,
      List.mem_singleton]
    constructor
    · intro h
      exact ⟨fun e he => h e (Or.inl he), fun hkk => (h (k', v) (Or.inr rfl)) hkk.symm⟩
    · rintro ⟨h, hkk⟩ e he
      rcases he with he | he
      · exact h e he
      · rw [he]; exact fun hc => hkk hc.symm

theorem map_lookup_fold_insert_eq_none_iff (ps : List (ℕ × String))
    (m : List (String × ℕ)) (k : String) :
    map_lookup (ps.foldl (fun acc e => map_insert acc e.2 e.1) m) k = none ↔
      (map_lookup m k = none ∧ ∀ p ∈ ps, p.2 ≠ k) := by
  induction ps generalizing m with
  | nil => simp
  | cons p t ih =>
    simp only [List.foldl_cons, ih, map_lookup_insert_eq_none_iff, List.mem_cons]
    constructor
    · rintro ⟨⟨h1, h2⟩, h3⟩
      exact ⟨h1, fun q hq => hq.elim (fun hqp => hqp ▸ fun hc => h2 hc.symm) (h3 q)⟩
    · rintro ⟨h1, h2⟩
      exact ⟨⟨h1, fun hc => h2 p (Or.inl rfl) hc.symm⟩, fun q hq => h2 q (Or.inr hq)⟩

theorem map_lookup_labels_to_map_eq_none_iff (labels : List String) (k : String) :
    map_lookup (labels_to_map labels) k = none ↔ k ∉ labels := by
  rw [labels_to_map, map_lookup_fold_insert_eq_none_iff]
  have hsnd : ∀ p ∈ labels.enum, p.2 ∈ labels := by
    intro p hp
    have : p.2 ∈ labels.enum.map Prod.snd := List.mem_map_of_mem Prod.snd hp
    simpa using this
  constructor
  · rintro ⟨-, h⟩ hk
    obtain ⟨i, hlt, hi⟩ := List.mem_iff_getElem.mp hk
    have : (i, k) ∈ labels.enum := by
      rw [List.mk_mem_enum_iff_get?]
      simp [List.get?_eq_getElem?, hlt, hi]
    exact h _ this rfl
  · intro hk
    exact ⟨rfl, fun p hp hpk => hk (hpk ▸ hsnd p hp)⟩

theorem map_insert_of_absent (m : List (String × ℕ)) (k : String) (v : ℕ)
    (h : map_lookup m k = none) : map_insert m k v = m ++ [(k, v)] := by
  have hany : m.any (fun e => e.1 == k) = false := by
    rw [List.any_eq_false]
    intro e he
    simpa using (map_lookup_eq_none_iff m k).mp h e he
  simp [map_insert, hany]

theorem map_lookup_append_of_none (m₁ m₂ : List (String × ℕ)) (k : String)
    (h : map_lookup m₁ k = none) : map_lookup (m₁ ++ m₂) k = map_lookup m₂ k := by
  have hf : m₁.find? (fun e => e.1 == k) = none := by
    simpa [map_lookup] using h
  simp [map_lookup, List.find?_append, hf]

theorem map_fold_insert_fresh (ps : List (ℕ × String)) (m : List (String × ℕ))
    (hnd : (ps.map Prod.snd).Nodup) (hfresh : ∀ p ∈ ps, map_lookup m p.2 = none) :
    ps.foldl (fun acc e => map_insert acc e.2 e.1) m =
      m ++ ps.map (fun e => (e.2, e.1)) := by
  induction ps generalizing m with
  | nil => simp
  | cons p t ih =>
    rw [List.map_cons, List.nodup_cons] at hnd
    simp only [List.foldl_cons, List.map_cons]
    rw [map_insert_of_absent m p.2 p.1 (hfresh p (List.mem_cons_self p t))]
    rw [ih (m ++ [(p.2, p.1)]) hnd.2 (fun q hq => ?_)]
    · simp
    · have hqk : q.2 ≠ p.2 := by
        intro hc
        exact hnd.1 (hc ▸ List.mem_map_of_mem Prod.snd hq)
      have hpk : p.2 ≠ q.2 := fun hc => hqk hc.symm
      rw [map_lookup_append_of_none _ _ _ (hfresh q (List.mem_cons_of_mem p hq))]
      simp [map_lookup, hpk]

theorem map_lookup_enumFrom_swap (l : List String) (k : ℕ) (hnd : l.Nodup)
    (label : String) (i : ℕ) :
    map_lookup ((l.enumFrom k).map (fun e => (e.2, e.1))) label = some i ↔
      ∃ j, l.get? j = some label ∧ i = k + j := by
  induction l generalizing k with
  | nil => simp [map_lookup]
  | cons a t ih =>
    have hnd' := List.nodup_cons.mp hnd
    simp only [List.enumFrom_cons, List.map_cons]
    by_cases hal : a = label
    · subst hal
      simp only [map_lookup, List.find?_cons, beq_self_eq_true]
      constructor
      · intro h
        refine ⟨0, by simp, ?_⟩
        simp only [Option.map_some', Option.some.injEq] at h
        omega
      · rintro ⟨j, hj, hij⟩
        match j with
        | 0 => simp at hij; simp [hij]
        | j + 1 =>
          exfalso
          exact hnd'.1 (List.get?_mem hj)
    · have hba : (a == label) = false := by simpa using hal
      simp only [map_lookup, List.find?_cons, hba]
      rw [show ((List.find? (fun e => e.1 == label)
          ((t.enumFrom (k + 1)).map (fun e => (e.2, e.1)))).map Prod.snd = some i ↔
          map_lookup ((t.enumFrom (k + 1)).map (fun e => (e.2, e.1))) label = some i)
        from Iff.rfl]
      rw [ih (k + 1) hnd'.2]
      constructor
      · rintro ⟨j, hj, hij⟩
        exact ⟨j + 1, by simpa using hj, by omega⟩
      · rintro ⟨j, hj, hij⟩
        match j with
        | 0 =>
          exfalso
          simp at hj
          exact hal hj
        | j + 1 =>
          exact ⟨j, by simpa using hj, by omega⟩

theorem with_labels_label_map_of_nodup (labels : List String) (hnd : labels.Nodup) :
    (ProcessingContext.with_labels labels).label_map =
      labels.enum.map (fun e => (e.2, e.1)) := by
  simp only [ProcessingContext.with_labels]
  rw [map_fold_insert_fresh labels.enum []
    (by simpa [List.enum_map_snd] using hnd) (fun p hp => rfl)]
  simp

theorem ensure_label_preserves_ids (ctx : ProcessingContext) (label : String)
    (h : (ctx.label_map.map Prod.snd).Perm (List.range ctx.label_map.length)) :
    (((ctx.ensure_label label).2).label_map.map Prod.snd).Perm
      (List.range ((ctx.ensure_label label).2).label_map.length) := by
  cases hl : map_lookup ctx.label_map label with
  | some id => simpa [ProcessingContext.ensure_label, hl] using h
  | none =>
    simp only [ProcessingContext.ensure_label, hl,
      map_insert_of_absent _ _ _ hl]
    rw [List.map_append, List.length_append]
    simp only [List.map_cons, List.map_nil, List.length_cons, List.length_nil]
    rw [List.range_succ]
    exact h.append_right _

theorem apply_ensure_labels_preserves_ids (ops : List String) (ctx : ProcessingContext)
    (h : (ctx.label_map.map Prod.snd).Perm (List.range ctx.label_map.length)) :
    (((apply_ensure_labels ops ctx).label_map.map Prod.snd).Perm
      (List.range (apply_ensure_labels ops ctx).label_map.length)) := by
  induction ops generalizing ctx with
  | nil => simpa [apply_ensure_labels] using h
  | cons o t ih =>
    have hstep := ensure_label_preserves_ids ctx o h
    simpa [apply_ensure_labels] using ih ((ctx.ensure_label o).2) hstep

/-- C10 counterexample: with_labels applied to the duplicate list ["a", "a"]
produces the map [("a", 1)], whose id set {1} is not {0, ...,
label_map.len - 1}: the second insert overwrote the first id. -/
theorem with_labels_duplicate_cex :
    (ProcessingContext.with_labels ["a", "a"]).label_map = [("a", 1)] ∧
    ¬ (((ProcessingContext.with_labels ["a", "a"]).label_map.map Prod.snd).Perm
        (List.range (ProcessingContext.with_labels ["a", "a"]).label_map.length)) := by
  constructor
  · rfl
  · decide

/-- C10 (amended): for a context created by new() or by with_labels over a
duplicate-free label list, after any sequence of ensure_label calls the ids
stored in label_map are exactly 0 .. label_map.length - 1; ensure_label on a
present label returns its id and leaves the context unchanged, and on an
absent label appends it with id equal to the map's size. -/
theorem label_map_ids_invariant (labels : List String) (hnd : labels.Nodup)
    (ops : List String) :
    (((apply_ensure_labels ops ProcessingContext.new).label_map.map Prod.snd).Perm
      (List.range (apply_ensure_labels ops ProcessingContext.new).label_map.length)) ∧
    (((apply_ensure_labels ops (ProcessingContext.with_labels labels)).label_map.map
        Prod.snd).Perm
      (List.range
        (apply_ensure_labels ops (ProcessingContext.with_labels labels)).label_map.length)) ∧
    (∀ (ctx : ProcessingContext) (label : String) (id : ℕ),
      map_lookup ctx.label_map label = some id → ctx.ensure_label label = (id, ctx)) ∧
    (∀ (ctx : ProcessingContext) (label : String),
      map_lookup ctx.label_map label = none →
        ctx.ensure_label label =
          (ctx.label_map.length,
           { ctx with label_map := ctx.label_map ++ [(label, ctx.label_map.length)] })) := by
  refine ⟨?_, ?_, ?_, ?_⟩
  · exact apply_ensure_labels_preserves_ids ops ProcessingContext.new (List.Perm.refl _)
  · refine apply_ensure_labels_preserves_ids ops _ ?_
    rw [with_labels_label_map_of_nodup labels hnd]
    have h1 : (labels.enum.map (fun e => (e.2, e.1))).map Prod.snd =
        labels.enum.map Prod.fst := by
      rw [List.map_map]
      rfl
    have h2 : (labels.enum.map (fun e => (e.2, e.1))).length = labels.length := by
      simp
    rw [h1, h2, List.enum_map_fst]
  · intro ctx label id h
    simp [ProcessingContext.ensure_label, h]
  · intro ctx label h
    simp [ProcessingContext.ensure_label, h, map_insert_of_absent _ _ _ h]

/-- C10 witness: from with_labels ["a", "b"] followed by ensure_label calls
for "c" and "a", the id multiset is {0, 1, 2}; looking up the present label
"b" returns id 1 without change, and ensure_label on the absent "z" appends
it with id 2. -/
theorem label_map_ids_invariant_witness :
    (((apply_ensure_labels ["c", "a"]
        (ProcessingContext.with_labels ["a", "b"])).label_map.map Prod.snd).Perm
      (List.range
        (apply_ensure_labels ["c", "a"]
          (ProcessingContext.with_labels ["a", "b"])).label_map.length)) ∧
    (ProcessingContext.with_labels ["a", "b"]).ensure_label "b" =
      (1, ProcessingContext.with_labels ["a", "b"]) ∧
    (ProcessingContext.with_labels ["a", "b"]).ensure_label "z" =
      (2, { ProcessingContext.with_labels ["a", "b"] with
            label_map := (ProcessingContext.with_labels ["a", "b"]).label_map ++
              [("z", 2)] }) := by
  have h := label_map_ids_invariant ["a", "b"] (by decide) ["c", "a"]
  refine ⟨h.2.1, ?_, ?_⟩
  · exact h.2.2.1 _ "b" 1 (by decide)
  · have := h.2.2.2 (ProcessingContext.with_labels ["a", "b"]) "z" (by decide)
    simpa using this

theorem collected_labels_foldl (reads : List (Except String LabelMeFile))
    (init : List String) :
    reads.foldl
      (fun acc r =>
        match r with
        | Except.ok ann => acc ++ ann.shapes.map (fun s => s.label)
        | Except.error _ => acc)
      init =
    init ++ (reads.map (fun r =>
      match r with
      | Except.ok ann => ann.shapes.map (fun s => s.label)
      | Except.error _ => [])).flatten := by
  induction reads generalizing init with
  | nil => simp
  | cons r t ih =>
    cases r with
    | ok ann => simp [ih, List.append_assoc]
    | error e => simp [ih]

theorem collected_labels_eq_flatten (reads : List (Except String LabelMeFile)) :
    collected_labels reads =
      (reads.map (fun r =>
        match r with
        | Except.ok ann => ann.shapes.map (fun s => s.label)
        | Except.error _ => [])).flatten := by
  simpa using collected_labels_foldl reads []

theorem gather_labels_eq_enum_map (reads : List (Except String LabelMeFile)) :
    gather_labels reads =
      (sorted_label_union reads).enum.map (fun e => (e.2, e.1)) := by
  rw [gather_labels]
  rw [map_fold_insert_fresh (sorted_label_union reads).enum []
    (by
      rw [List.enum_map_snd]
      exact ((List.mergeSort_perm _ _).symm).nodup (List.nodup_dedup _))
    (fun p hp => rfl)]
  simp

/-- C7: the deterministic first pass assigns id i to the i-th label of the
alphabetically sorted union of all shape labels of the readable files; being
determined by that sorted duplicate-free union, the resulting map is
identical for any permutation of the file list and across repeated runs. -/
theorem gather_labels_deterministic (reads : List (Except String LabelMeFile)) :
    (∀ (label : String) (i : ℕ),
      map_lookup (gather_labels reads) label = some i ↔
        (sorted_label_union reads).get? i = some label) ∧
    (sorted_label_union reads).Sorted (· ≤ ·) ∧
    (sorted_label_union reads).Nodup ∧
    (∀ x, x ∈ sorted_label_union reads ↔ x ∈ collected_labels reads) ∧
    (∀ reads₂, reads.Perm reads₂ → gather_labels reads = gather_labels reads₂) := by
  have hnd : (sorted_label_union reads).Nodup :=
    ((List.mergeSort_perm _ _).symm).nodup (List.nodup_dedup _)
  refine ⟨?_, List.sorted_mergeSort' _, hnd, ?_, ?_⟩
  · intro label i
    rw [gather_labels_eq_enum_map]
    rw [show (sorted_label_union reads).enum =
      (sorted_label_union reads).enumFrom 0 from rfl]
    rw [map_lookup_enumFrom_swap _ 0 hnd]
    constructor
    · rintro ⟨j, hj, hij⟩
      simpa [hij] using hj
    · intro h
      exact ⟨i, h, by omega⟩
  · intro x
    rw [show (x ∈ sorted_label_union reads ↔ x ∈ (collected_labels reads).dedup) from
      (List.mergeSort_perm _ _).mem_iff]
    exact List.mem_dedup
  · intro reads₂ hp
    have hcoll : (collected_labels reads).Perm (collected_labels reads₂) := by
      rw [collected_labels_eq_flatten, collected_labels_eq_flatten]
      exact (hp.map _).flatten
    have hsorted : sorted_label_union reads = sorted_label_union reads₂ := by
      apply List.eq_of_perm_of_sorted
        (((List.mergeSort_perm _ _).trans hcoll.dedup).trans
          (List.mergeSort_perm _ _).symm)
        (List.sorted_mergeSort' _) (List.sorted_mergeSort' _)
    rw [gather_labels_eq_enum_map, gather_labels_eq_enum_map, hsorted]

unseal List.merge List.mergeSort in
/-- C7 witness: permuting two files (one with label "b" twice, one
unreadable) leaves the gathered map unchanged, and the map sends "b" to
id 0, the first entry of the sorted union. -/
theorem gather_labels_deterministic_witness :
    gather_labels [Except.ok
        { version := "5", shapes := [{ label := "b", points := [], shape_type := "polygon" },
            { label := "b", points := [], shape_type := "polygon" }],
          image_path := "i.png", image_data := none,
          image_height := 1, image_width := 1 },
      Except.error "bad"] =
      gather_labels [Except.error "bad",
        Except.ok
        { version := "5", shapes := [{ label := "b", points := [], shape_type := "polygon" },
            { label := "b", points := [], shape_type := "polygon" }],
          image_path := "i.png", image_data := none,
          image_height := 1, image_width := 1 }] ∧
    map_lookup (gather_labels [Except.ok
        { version := "5", shapes := [{ label := "b", points := [], shape_type := "polygon" },
            { label := "b", points := [], shape_type := "polygon" }],
          image_path := "i.png", image_data := none,
          image_height := 1, image_width := 1 },
      Except.error "bad"]) "b" = some 0 := by
  constructor
  · exact (gather_labels_deterministic _).2.2.2.2 _
      (List.Perm.swap _ _ [])
  · exact ((gather_labels_deterministic _).1 "b" 0).mpr (by decide)

/-- C5: in both the YOLO and the COCO shape loops, a shape whose label is
absent from the non-empty predefined label list (hence from the label map
built from it) only increments the skipped count by one and inserts the
label into the skipped-label set; lines, annotations, counters and the
invalid-record list are untouched. -/
theorem unlisted_label_skipped (label_list : List String) (shape : Shape)
    (hne : label_list ≠ []) (hnotin : shape.label ∉ label_list)
    (file_name : String) (image_width image_height : ℕ)
    (format : AnnotationFormat) (input_format : InputAnnotationFormat)
    (st : YoloLoopState) (cos_turn sin_turn sqrt_fn : ℚ → ℚ) (image_id : ℕ)
    (segmentation_mode : SegmentationMode) (cst : CocoLoopState) :
    yolo_shape_step file_name (labels_to_map label_list) image_width image_height
        format input_format st shape =
      { st with
        skipped_labels := set_insert st.skipped_labels shape.label,
        skipped_count := st.skipped_count + 1 } ∧
    coco_shape_step cos_turn sin_turn sqrt_fn file_name (labels_to_map label_list)
        image_id segmentation_mode input_format cst shape =
      { cst with
        skipped_labels := set_insert cst.skipped_labels shape.label,
        skipped_count := cst.skipped_count + 1 } := by
  have hnone : map_lookup (labels_to_map label_list) shape.label = none :=
    (map_lookup_labels_to_map_eq_none_iff label_list shape.label).mpr hnotin
  constructor
  · simp [yolo_shape_step, hnone]
  · simp [coco_shape_step, hnone]

/-- C5 witness: a "dog" shape against the predefined list ["cat"] is skipped
in both loops, with the label recorded. -/
theorem unlisted_label_skipped_witness :
    yolo_shape_step "f.json" (labels_to_map ["cat"]) 100 100 AnnotationFormat.Bbox
        InputAnnotationFormat.Unknown
        { yolo_lines := [], annotation_count := 0, skipped_count := 0,
          invalid_records := [], skipped_labels := [] }
        { label := "dog", points := [(0, 0), (1, 1)], shape_type := "rectangle" } =
      { yolo_lines := [], annotation_count := 0,
        skipped_count := 0 + 1, invalid_records := [],
        skipped_labels := set_insert [] "dog" } ∧
    coco_shape_step (fun q => q) (fun q => q) (fun q => q) "f.json"
        (labels_to_map ["cat"]) 7 SegmentationMode.Polygon
        InputAnnotationFormat.Unknown
        { coco_anns := [], skipped_count := 0, invalid_records := [],
          annotation_id_counter := 1, skipped_labels := [] }
        { label := "dog", points := [(0, 0), (1, 1)], shape_type := "rectangle" } =
      { coco_anns := [], skipped_count := 0 + 1, invalid_records := [],
        annotation_id_counter := 1, skipped_labels := set_insert [] "dog" } :=
  unlisted_label_skipped ["cat"]
    { label := "dog", points := [(0, 0), (1, 1)], shape_type := "rectangle" }
    (by decide) (by decide) "f.json" 100 100 AnnotationFormat.Bbox
    InputAnnotationFormat.Unknown
    { yolo_lines := [], annotation_count := 0, skipped_count := 0,
      invalid_records := [], skipped_labels := [] }
    (fun q => q) (fun q => q) (fun q => q) 7 SegmentationMode.Polygon
    { coco_anns := [], skipped_count := 0, invalid_records := [],
      annotation_id_counter := 1, skipped_labels := [] }

theorem flatten_polygon_length (points : List (ℚ × ℚ)) :
    (flatten_polygon points).length = 2 * points.length := by
  induction points with
  | nil => rfl
  | cons p t ih =>
    simp only [flatten_polygon, List.foldr_cons, List.length_cons] at ih ⊢
    omega

theorem normalize_polygon_length (points : List (ℚ × ℚ)) (w h : ℕ) :
    (normalize_polygon points w h).length = points.length := by
  simp [normalize_polygon]

/-- C8: for a shape passing validation, the bbox-mode line is the class id
followed by exactly the 4 bounding-box numbers whenever the clamped box is
positive; in polygon mode a Bbox2Point shape is first expanded to the four
corners (x1,y1),(x2,y1),(x2,y2),(x1,y2), giving 8 numbers, and any other
input format passes the points through, giving 2 * points.len() numbers. -/
theorem yolo_line_arity (shape : Shape) (class_id : ℕ)
    (image_width image_height : ℕ) (input_format : InputAnnotationFormat)
    (hval : validate_shape_points shape input_format = Except.ok ()) :
    (∀ b, calculate_bbox shape image_width image_height = some b →
      shape_to_yolo_line shape class_id image_width image_height
          AnnotationFormat.Bbox input_format =
        Except.ok (class_id, [b.1, b.2.1, b.2.2.1, b.2.2.2])) ∧
    (input_format = InputAnnotationFormat.Bbox2Point →
      ∀ p1 p2, shape.points = [p1, p2] →
        shape_to_yolo_line shape class_id image_width image_height
            AnnotationFormat.Polygon input_format =
          Except.ok (class_id,
            flatten_polygon (normalize_polygon
              [(p1.1, p1.2), (p2.1, p1.2), (p2.1, p2.2), (p1.1, p2.2)]
              image_width image_height)) ∧
        ∃ ns, shape_to_yolo_line shape class_id image_width image_height
            AnnotationFormat.Polygon input_format = Except.ok (class_id, ns) ∧
          ns.length = 8) ∧
    (input_format ≠ InputAnnotationFormat.Bbox2Point →
      ∃ ns, shape_to_yolo_line shape class_id image_width image_height
          AnnotationFormat.Polygon input_format = Except.ok (class_id, ns) ∧
        ns.length = 2 * shape.points.length) := by
  refine ⟨?_, ?_, ?_⟩
  · intro b hb
    simp [shape_to_yolo_line, hval, hb]
  · intro hfmt p1 p2 hpts
    subst hfmt
    obtain ⟨x1, y1⟩ := p1
    obtain ⟨x2, y2⟩ := p2
    have hrect : rectangle_to_polygon shape.points =
        [(x1, y1), (x2, y1), (x2, y2), (x1, y2)] := by
      rw [hpts]; rfl
    constructor
    · simp [shape_to_yolo_line, hval, hrect]
    · refine ⟨flatten_polygon (normalize_polygon (rectangle_to_polygon shape.points)
        image_width image_height), by simp [shape_to_yolo_line, hval], ?_⟩
      rw [flatten_polygon_length, normalize_polygon_length, hrect]
      rfl
  · intro hfmt
    have harity : (flatten_polygon
        (normalize_polygon shape.points image_width image_height)).length =
        2 * shape.points.length := by
      rw [flatten_polygon_length, normalize_polygon_length]
    cases input_format with
    | Bbox2Point => exact absurd rfl hfmt
    | Bbox4Point =>
      exact ⟨flatten_polygon (normalize_polygon shape.points image_width image_height),
        by simp [shape_to_yolo_line, hval], harity⟩
    | Polygon =>
      exact ⟨flatten_polygon (normalize_polygon shape.points image_width image_height),
        by simp [shape_to_yolo_line, hval], harity⟩
    | Unknown =>
      exact ⟨flatten_polygon (normalize_polygon shape.points image_width image_height),
        by simp [shape_to_yolo_line, hval], harity⟩

/-- C8 witness: the 2-point rectangle (0,0)-(10,10) in a 100x100 image gives
the 4 bbox numbers (1/20, 1/20, 1/10, 1/10) in bbox mode and an 8-number
line in polygon mode under Bbox2Point. -/
theorem yolo_line_arity_witness :
    shape_to_yolo_line
        { label := "cat", points := [(0, 0), (10, 10)], shape_type := "rectangle" }
        0 100 100 AnnotationFormat.Bbox InputAnnotationFormat.Bbox2Point =
      Except.ok (0, [(1/20 : ℚ), 1/20, 1/10, 1/10]) ∧
    (∃ ns, shape_to_yolo_line
        { label := "cat", points := [(0, 0), (10, 10)], shape_type := "rectangle" }
        0 100 100 AnnotationFormat.Polygon InputAnnotationFormat.Bbox2Point =
      Except.ok (0, ns) ∧ ns.length = 8) := by
  have h := yolo_line_arity
    { label := "cat", points := [(0, 0), (10, 10)], shape_type := "rectangle" }
    0 100 100 InputAnnotationFormat.Bbox2Point rfl
  constructor
  · exact h.1 ((1/20 : ℚ), (1/20 : ℚ), (1/10 : ℚ), (1/10 : ℚ))
      (by norm_num [calculate_bbox, get_bounding_coords]; simp)
  · exact (h.2.1 rfl (0, 0) (10, 10) rfl).2

theorem shape_to_coco_ann_fields (cos_turn sin_turn sqrt_fn : ℚ → ℚ) (shape : Shape)
    (image_id category_id annotation_id : ℕ) (seg : SegmentationMode)
    (ann : CocoAnnRecord)
    (h : shape_to_coco_ann cos_turn sin_turn sqrt_fn shape image_id category_id
      annotation_id seg = some ann) :
    ann.category_id = category_id ∧ ann.id = annotation_id := by
  unfold shape_to_coco_ann at h
  cases hc : coco_convert_points cos_turn sin_turn sqrt_fn shape with
  | none => rw [hc] at h; exact absurd h (by simp)
  | some pts =>
    rw [hc] at h
    dsimp only at h
    split_ifs at h with h1 h2
    all_goals first
      | exact Option.noConfusion h
      | (rw [Option.some_inj] at h
         rw [← h]
         exact ⟨rfl, rfl⟩)

/-- C9: in the COCO shape loop, for a shape accepted by the label policy and
by validation, a converted point list with fewer than 3 points or
non-positive shoelace area produces no annotation and leaves the loop state
(including the annotation id counter and the invalid records) unchanged;
every emitted annotation carries category id equal to its label-map id
plus 1 and advances the counter by exactly 1. -/
theorem coco_zero_area_dropped (cos_turn sin_turn sqrt_fn : ℚ → ℚ)
    (json_file_name : String) (label_map : List (String × ℕ)) (image_id : ℕ)
    (seg : SegmentationMode) (input_format : InputAnnotationFormat)
    (st : CocoLoopState) (shape : Shape) (class_id : ℕ)
    (hlabel : map_lookup label_map shape.label = some class_id)
    (hval : validate_shape_points shape input_format = Except.ok ()) :
    (∀ pts, coco_convert_points cos_turn sin_turn sqrt_fn shape = some pts →
      (pts.length < 3 ∨ calculate_polygon_area pts ≤ 0) →
      shape_to_coco_ann cos_turn sin_turn sqrt_fn shape image_id (class_id + 1)
          st.annotation_id_counter seg = none ∧
      coco_shape_step cos_turn sin_turn sqrt_fn json_file_name label_map image_id
          seg input_format st shape = st) ∧
    (∀ ann, shape_to_coco_ann cos_turn sin_turn sqrt_fn shape image_id (class_id + 1)
          st.annotation_id_counter seg = some ann →
      ann.category_id = class_id + 1 ∧
      coco_shape_step cos_turn sin_turn sqrt_fn json_file_name label_map image_id
          seg input_format st shape =
        { st with
          coco_anns := st.coco_anns ++ [ann],
          annotation_id_counter := st.annotation_id_counter + 1 }) := by
  constructor
  · intro pts hpts hcond
    have hnone : shape_to_coco_ann cos_turn sin_turn sqrt_fn shape image_id
        (class_id + 1) st.annotation_id_counter seg = none := by
      unfold shape_to_coco_ann
      rw [hpts]
      dsimp only
      split_ifs with h1 h2
      · rfl
      · rfl
      · rcases hcond with h | h
        · exact absurd h h1
        · exact absurd h h2
    refine ⟨hnone, ?_⟩
    simp [coco_shape_step, hlabel, hval, hnone]
  · intro ann hann
    refine ⟨(shape_to_coco_ann_fields _ _ _ _ _ _ _ _ _ hann).1, ?_⟩
    simp [coco_shape_step, hlabel, hval, hann]

/-- C9 witness: the degenerate 3-point polygon (0,0),(1,1),(2,2) has
shoelace area 0 and is dropped: no annotation, counter and state unchanged. -/
theorem coco_zero_area_dropped_witness :
    shape_to_coco_ann (fun q => q) (fun q => q) (fun q => q)
        { label := "cat", points := [(0, 0), (1, 1), (2, 2)], shape_type := "polygon" }
        5 (0 + 1) 1 SegmentationMode.Polygon = none ∧
    coco_shape_step (fun q => q) (fun q => q) (fun q => q) "f.json" [("cat", 0)] 5
        SegmentationMode.Polygon InputAnnotationFormat.Polygon
        { coco_anns := [], skipped_count := 0, invalid_records := [],
          annotation_id_counter := 1, skipped_labels := [] }
        { label := "cat", points := [(0, 0), (1, 1), (2, 2)], shape_type := "polygon" } =
      { coco_anns := [], skipped_count := 0, invalid_records := [],
        annotation_id_counter := 1, skipped_labels := [] } :=
  (coco_zero_area_dropped (fun q => q) (fun q => q) (fun q => q) "f.json"
    [("cat", 0)] 5 SegmentationMode.Polygon InputAnnotationFormat.Polygon
    { coco_anns := [], skipped_count := 0, invalid_records := [],
      annotation_id_counter := 1, skipped_labels := [] }
    { label := "cat", points := [(0, 0), (1, 1), (2, 2)], shape_type := "polygon" }
    0 (by decide) rfl).1 [(0, 0), (1, 1), (2, 2)] rfl
    (Or.inr (by norm_num [calculate_polygon_area, List.range_succ]))

theorem convert_errors_monotone (files : List YoloFileSummary)
    (acc : ProcessingStats × List String) (x : String) (hx : x ∈ acc.2) :
    x ∈ (files.foldl convert_file_step acc).2 := by
  induction files generalizing acc with
  | nil => exact hx
  | cons g t ih =>
    rw [List.foldl_cons]
    apply ih
    cases hg : g.outcome with
    | ok r => simpa [convert_file_step, hg] using hx
    | error e =>
      simp only [convert_file_step, hg]
      exact List.mem_append_left _ hx

theorem convert_errors_of_failed_file (files : List YoloFileSummary)
    (acc : ProcessingStats × List String) (f : YoloFileSummary) (e : String)
    (hf : f ∈ files) (he : f.outcome = Except.error e) :
    (f.name ++ ": " ++ e) ∈ (files.foldl convert_file_step acc).2 := by
  induction files generalizing acc with
  | nil => cases hf
  | cons g t ih =>
    rw [List.foldl_cons]
    rcases List.mem_cons.mp hf with rfl | hmem
    · apply convert_errors_monotone
      simp [convert_file_step, he]
    · exact ih _ hmem

/-- C6: a conversion run fails exactly on configuration-validation failure
(missing input directory or ratios out of range) or output-directory setup
failure; a validation failure yields the bare failure result with zero
processed files; once directories are set up the run is reported successful
even when individual files fail, each failure appearing in the error list as
"file: message". -/
theorem conversion_run_success_policy (cfg : ConversionConfig)
    (setup : Except String String) (files : List YoloFileSummary)
    (yaml_result : Except String Unit) :
    ((convert_to_yolo cfg setup files yaml_result).success = false ↔
      ((∃ e, cfg.validate = Except.error e) ∨
        (cfg.validate = Except.ok () ∧ ∃ e, setup = Except.error e))) ∧
    ((∃ e, cfg.validate = Except.error e) ↔
      (cfg.input_dir_exists = false ∨ cfg.val_size < 0 ∨ 1 < cfg.val_size ∨
        cfg.test_size < 0 ∨ 1 < cfg.test_size ∨ 1 < cfg.val_size + cfg.test_size)) ∧
    (∀ e, cfg.validate = Except.error e →
      convert_to_yolo cfg setup files yaml_result = ConversionResult.mk_failure [e] ∧
      (convert_to_yolo cfg setup files yaml_result).stats.processed_files = 0) ∧
    (cfg.validate = Except.ok () → ∀ base_dir, setup = Except.ok base_dir →
      (convert_to_yolo cfg setup files yaml_result).success = true ∧
      (∀ f ∈ files, ∀ e, f.outcome = Except.error e →
        (f.name ++ ": " ++ e) ∈ (convert_to_yolo cfg setup files yaml_result).errors)) := by
  refine ⟨?_, ?_, ?_, ?_⟩
  · cases hv : cfg.validate with
    | error e =>
      simp [convert_to_yolo, hv, ConversionResult.mk_failure]
    | ok u =>
      cases u
      cases hs : setup with
      | error e =>
        simp [convert_to_yolo, hv, hs, ConversionResult.mk_failure]
      | ok base_dir =>
        simp only [convert_to_yolo, hv, hs]
        constructor
        · intro hfalse
          exfalso
          revert hfalse
          split_ifs <;> simp [ConversionResult.mk_success]
        · rintro (⟨e, he⟩ | ⟨-, e, he⟩) <;> cases he
  · rw [ConversionConfig.validate]
    split_ifs with h1 h2 h3 h4 <;>
      constructor <;> intro h <;>
        first
          | tauto
          | (rcases h with ⟨e, he⟩; cases he; tauto)
          | exact ⟨_, rfl⟩
  · intro e he
    refine ⟨by simp [convert_to_yolo, he], ?_⟩
    simp [convert_to_yolo, he, ConversionResult.mk_failure, ProcessingStats.new]
  · intro hv base_dir hs
    constructor
    · simp only [convert_to_yolo, hv, hs]
      split_ifs <;> simp [ConversionResult.mk_success]
    · intro f hf e he
      simp only [convert_to_yolo, hv, hs]
      have hmem : (f.name ++ ": " ++ e) ∈
          (files.foldl convert_file_step
            ({ ProcessingStats.new with total_files := files.length }, [])).2 :=
        convert_errors_of_failed_file files _ f e hf he
      cases hy : yaml_result with
      | ok u =>
        simp only [hy]
        split_ifs with hemp
        · rw [hemp] at hmem; cases hmem
        · simpa [ConversionResult.mk_success] using hmem
      | error ey =>
        simp only [hy]
        split_ifs with hemp
        · exact absurd (hemp ▸ List.mem_append_left _ hmem) (by simp)
        · exact List.mem_append_left _ hmem

/-- C6 witness: a missing input directory yields the bare failure result with
zero processed files, while a valid configuration with one failing file still
succeeds, recording "a.json: boom" in the error list. -/
theorem conversion_run_success_policy_witness :
    convert_to_yolo
        { input_dir_exists := false, val_size := 0, test_size := 0, label_list := [],
          deterministic_labels := false, include_background := false,
          annotation_format := AnnotationFormat.Bbox,
          segmentation_mode := SegmentationMode.Polygon, remove_image_data := false }
        (Except.ok "out") [] (Except.ok ()) =
      ConversionResult.mk_failure ["Input directory does not exist"] ∧
    (convert_to_yolo
        { input_dir_exists := true, val_size := 0, test_size := 0, label_list := [],
          deterministic_labels := false, include_background := false,
          annotation_format := AnnotationFormat.Bbox,
          segmentation_mode := SegmentationMode.Polygon, remove_image_data := false }
        (Except.ok "out") [{ name := "a.json", outcome := Except.error "boom" }]
        (Except.ok ())).success = true ∧
    ("a.json" ++ ": " ++ "boom") ∈
      (convert_to_yolo
        { input_dir_exists := true, val_size := 0, test_size := 0, label_list := [],
          deterministic_labels := false, include_background := false,
          annotation_format := AnnotationFormat.Bbox,
          segmentation_mode := SegmentationMode.Polygon, remove_image_data := false }
        (Except.ok "out") [{ name := "a.json", outcome := Except.error "boom" }]
        (Except.ok ())).errors := by
  refine ⟨?_, ?_, ?_⟩
  · exact ((conversion_run_success_policy
      { input_dir_exists := false, val_size := 0, test_size := 0, label_list := [],
          deterministic_labels := false, include_background := false,
          annotation_format := AnnotationFormat.Bbox,
          segmentation_mode := SegmentationMode.Polygon, remove_image_data := false } (Except.ok "out") [] (Except.ok ())).2.2.1
      "Input directory does not exist" rfl).1
  · exact ((conversion_run_success_policy
      { input_dir_exists := true, val_size := 0, test_size := 0, label_list := [],
          deterministic_labels := false, include_background := false,
          annotation_format := AnnotationFormat.Bbox,
          segmentation_mode := SegmentationMode.Polygon, remove_image_data := false } (Except.ok "out")
      [{ name := "a.json", outcome := Except.error "boom" }] (Except.ok ())).2.2.2
      (by norm_num [ConversionConfig.validate]) "out" rfl).1
  · exact ((conversion_run_success_policy
      { input_dir_exists := true, val_size := 0, test_size := 0, label_list := [],
          deterministic_labels := false, include_background := false,
          annotation_format := AnnotationFormat.Bbox,
          segmentation_mode := SegmentationMode.Polygon, remove_image_data := false } (Except.ok "out")
      [{ name := "a.json", outcome := Except.error "boom" }] (Except.ok ())).2.2.2
      (by norm_num [ConversionConfig.validate]) "out" rfl).2 _
      (List.mem_singleton_self _) "boom" rfl

/-- C4 counterexample: in the YOLO writer, a JSON file whose resolved image
key "img.png" is already in processed_images is NOT skipped: processing
returns Ok having written the image and the label file and having recorded
its shape outcome (here one invalid-shape record and skipped count 1), and
processed_images is left at ["img.png"]; the source performs no membership
check before processing. -/
theorem yolo_no_duplicate_skip_cex :
    (yolo_process_single_file "a.json"
        { version := "5",
          shapes := [{ label := "cat", points := [(0, 0), (1, 1), (2, 2)],
                       shape_type := "polygon" }],
          image_path := "img.png", image_data := some "d",
          image_height := 100, image_width := 100 }
        "img.png" true (fun _ => 0) ["cat"] false AnnotationFormat.Bbox 0 0
        [("cat", 0)] ["img.png"] [] InputAnnotationFormat.Bbox2Point).2.2.2 =
      Except.ok
        { annotation_count := 0, skipped_count := 1,
          invalid_records := [{ file := "a.json", label := "cat",
                                reason := InvalidReason.PointsCountMismatch
                                  InputAnnotationFormat.Bbox2Point 3,
                                shape_type := "polygon", points_count := 3 }],
          yolo_lines := [], image_written := true, label_file_written := true } ∧
    (yolo_process_single_file "a.json"
        { version := "5",
          shapes := [{ label := "cat", points := [(0, 0), (1, 1), (2, 2)],
                       shape_type := "polygon" }],
          image_path := "img.png", image_data := some "d",
          image_height := 100, image_width := 100 }
        "img.png" true (fun _ => 0) ["cat"] false AnnotationFormat.Bbox 0 0
        [("cat", 0)] ["img.png"] [] InputAnnotationFormat.Bbox2Point).2.1 =
      ["img.png"] := by
  constructor
  · rfl
  · rfl

/-- C4 (amended): the duplicate-image skip is implemented in the self-format
(LabelMe) pipeline: a file whose resolved image key was already processed
returns the default result - context unchanged, nothing written, zero
counts.  The label-format (YOLO) writer only records the key in
processed_images (used to exclude background images) and processes the file
regardless. -/
theorem duplicate_image_skip (ann : LabelMeFile) (image_key : String)
    (image_exists : Bool) (label_list : List String) (remove_data : Bool)
    (ctx : ProcessingContext) (hdup : image_key ∈ ctx.processed_images) :
    labelme_process_file ann image_key image_exists label_list remove_data ctx =
      (ctx, Except.ok
        { annotations_processed := 0, annotations_skipped := 0,
          json_written := false, image_copied := false }) ∧
    (∀ (json_file_name : String) (hash_fn : String → ℕ)
        (cfg_label_list : List String) (cfg_det : Bool) (fmt : AnnotationFormat)
        (val_size test_size : ℚ) (label_map : List (String × ℕ))
        (processed_images skipped_labels : List String)
        (input_format : InputAnnotationFormat),
      (yolo_process_single_file json_file_name ann image_key image_exists hash_fn
          cfg_label_list cfg_det fmt val_size test_size label_map processed_images
          skipped_labels input_format).2.1 =
        set_insert processed_images image_key) := by
  constructor
  · have hproc : ctx.is_image_processed image_key = true := by
      simpa [ProcessingContext.is_image_processed] using hdup
    simp [labelme_process_file, hproc]
  · intro json_file_name hash_fn cfg_label_list cfg_det fmt val_size test_size
      label_map processed_images skipped_labels input_format
    cases hd : ann.image_data <;> cases himg : image_exists <;>
      simp [yolo_process_single_file, hd]

/-- C4 witness: with "img.png" already processed, the self-format pipeline
returns the untouched context and the all-zero result, and the YOLO writer's
processed-image set after the call is just the recorded key. -/
theorem duplicate_image_skip_witness :
    labelme_process_file
        { version := "5", shapes := [], image_path := "img.png",
          image_data := none, image_height := 1, image_width := 1 }
        "img.png" true [] false
        { label_map := [], processed_images := ["img.png"], skipped_labels := [] } =
      ({ label_map := [], processed_images := ["img.png"], skipped_labels := [] },
        Except.ok
          { annotations_processed := 0, annotations_skipped := 0,
            json_written := false, image_copied := false }) :=
  (duplicate_image_skip
    { version := "5", shapes := [], image_path := "img.png",
      image_data := none, image_height := 1, image_width := 1 }
    "img.png" true [] false
    { label_map := [], processed_images := ["img.png"], skipped_labels := [] }
    (by decide)).1
